import Mathlib

/-!
Shallow embedding of the fly-build-utils module (src/src/index.js): a small
process orchestration and webpack compilation layer. JS promises are modelled
as an explicit three-state machine, child processes as the event traces they
emit, and the webpack engine as the sequence of build outcomes it delivers to
the registered callback. All definitions are translated from the source.
-/

namespace FlyBuildUtils

/-- JS truthiness applied to an optional string, as in the idiom
x or-else d at src/src/index.js:24 and :26: undefined and the empty
string both fall back to the default. -/
def jsOrStr (o : Option String) (d : String) : String :=
  match o with
  | none => d
  | some s => if s = "" then d else s

/-- The params object accepted by run (src/src/index.js:12-16): each field
may be absent, as JS object fields can be. -/
structure RunParams where
  method : Option String := none
  args : Option (List String) := none
  resolveOn : Option String := none
deriving Repr, DecidableEq

/-- args or-else [] (src/src/index.js:23); an array is always truthy in JS,
so only an absent field falls back. -/
def argsOf (p : RunParams) : List String :=
  p.args.getD []

/-- resolveOn or-else "exit" (src/src/index.js:24), with JS string
truthiness. -/
def resolveOnOf (p : RunParams) : String :=
  jsOrStr p.resolveOn "exit"

/-- An environment map: variable name to optional value (absent = unset). -/
def Env : Type := String → Option String

/-- The environment handed to every spawned child (src/src/index.js:26-27):
Object.assign of the ambient environment with NODE_ENV set to the
inherited value or-else "development". -/
def childEnv (ambient : Env) : Env :=
  fun k => if k = "NODE_ENV" then some (jsOrStr (ambient "NODE_ENV") "development") else ambient k

/-- The child_process invocation selected by the switch on params.method
(src/src/index.js:31-51): fork and exec by name, anything else falls
through to spawn. -/
inductive Launch where
  | fork (script : String) (args : List String) (env : Env)
  | exec (cmd : String) (env : Env)
  | spawn (script : String) (args : List String) (env : Env)

/-- The environment carried by a launch. -/
def Launch.environment : Launch → Env
  | .fork _ _ env => env
  | .exec _ env => env
  | .spawn _ _ env => env

/-- The three strategies named by the spec: Background = fork,
Shell = exec, Foreground = spawn. -/
inductive Strategy where
  | background
  | shell
  | foreground
deriving Repr, DecidableEq

/-- Which branch of the switch at src/src/index.js:31-51 a params object
selects. -/
def strategyOf (p : RunParams) : Strategy :=
  match p.method with
  | some "fork" => .background
  | some "exec" => .shell
  | _ => .foreground

/-- The process-creation call run makes for a given script, params and
ambient environment (src/src/index.js:21-53, before the event listener is
attached). -/
def runLaunch (script : String) (p : RunParams) (ambient : Env) : Launch :=
  match p.method with
  | some "fork" => .fork script (argsOf p) (childEnv ambient)
  | some "exec" => .exec script (childEnv ambient)
  | _ => .spawn script (argsOf p) (childEnv ambient)

/-- A JS promise over payload type a: pending, fulfilled or rejected. -/
inductive PromiseState (a : Type) where
  | pending
  | fulfilled (v : a)
  | rejected (e : a)
deriving Repr, DecidableEq

/-- Calling the resolve capability of a promise: settles a pending promise,
is a no-op on an already settled one (JS promise semantics). -/
def resolveP (st : PromiseState a) (v : a) : PromiseState a :=
  match st with
  | .pending => .fulfilled v
  | st => st

/-- Whether a promise is rejected. -/
def PromiseState.isRejected : PromiseState a → Bool
  | .rejected _ => true
  | _ => false

/-- One fold step of the event listener attached by run
(src/src/index.js:35, :41, :47): on every firing of the awaited event,
call resolve with its payload; other events are ignored. The counter
records how many calls to resolve actually settled the promise. -/
def runStep (done : String) (st : PromiseState a × Nat) (ev : String × a) :
    PromiseState a × Nat :=
  if ev.1 = done then
    match st.1 with
    | .pending => (.fulfilled ev.2, st.2 + 1)
    | s => (s, st.2)
  else st

/-- The promise returned by run, given the trace of events the child
emits: the executor at src/src/index.js:29-53 only ever calls resolve,
from the on-listener for the awaited event. -/
def runFuture (p : RunParams) (trace : List (String × a)) : PromiseState a :=
  (trace.foldl (runStep (resolveOnOf p)) (.pending, 0)).1

/-- How many times the promise returned by run is actually settled over a
trace. -/
def runResolveCount (p : RunParams) (trace : List (String × a)) : Nat :=
  (trace.foldl (runStep (resolveOnOf p)) (.pending, 0)).2

/-- The event trace a child emits when the OS cannot create the process
(bad path, permissions): node fires the error event on the handle and no
exit event follows. -/
def spawnFailureTrace (e : a) : List (String × a) :=
  [("error", e)]

/-- A resolved JS future, denotationally: the moment it completes and the
value it completes with. Used for the Promise.all join in runAsync. -/
structure JsFuture (a : Type) where
  time : Nat
  value : a
deriving Repr, DecidableEq

/-- Promise.all over a list of (eventually resolving) futures: completes
once the last input future has, with the values in input order. -/
def promiseAll (fs : List (JsFuture a)) : JsFuture (List a) :=
  { time := (fs.map JsFuture.time).foldl max 0, value := fs.map JsFuture.value }

/-- An element of the list handed to runAsync (src/src/index.js:61): a bare
script string, or an object with a script field and an optional params
field. -/
inductive RunItem where
  | str (script : String)
  | obj (script : String) (params : Option RunParams)
deriving Repr, DecidableEq

/-- The normalization at src/src/index.js:71-75: a bare string becomes a
one-element argument list, so run sees its default params; an object
contributes its params or-else the empty object. -/
def normalizeItem : RunItem → String × RunParams
  | .str script => (script, {})
  | .obj script params => (script, params.getD {})

/-- runAsync (src/src/index.js:66-80): normalize each element, start every
run concurrently, and join with Promise.all. The external behavior of one
run is a semantics function from script and params to the resolved
future. -/
def runAsync (runSem : String → RunParams → JsFuture a) (scripts : List RunItem) :
    JsFuture (List a) :=
  promiseAll (scripts.map (fun item => runSem (normalizeItem item).1 (normalizeItem item).2))

/-- One entry of the list produced by getServers
(src/src/index.js:102-105, :109-112). -/
structure ServerEntry where
  script : String
  params : RunParams
deriving Repr, DecidableEq

/-- getServers (src/src/index.js:93-116). The filesystem is external: the
listing argument is what readdirSync of app/bundles would return, or the
error it would raise; it is consulted only when params.bundles is absent
(an array, even the empty one, is truthy in JS). -/
def getServers (bundles : Option (List String)) (hot : Bool)
    (listing : Except String (List String)) : Except String (List ServerEntry) := do
  let servers ← match bundles with
    | some bs => pure bs
    | none => listing
  if hot then
    pure (servers.map (fun server =>
      { script := "scripts/nodemon"
        params := { args := some ["build/" ++ server ++ ".js"] } }))
  else
    pure (servers.map (fun server =>
      { script := "build/" ++ server ++ ".js"
        params := { method := some "fork" } }))

/-- One emission of the diagnostics reporter: this.error or this.log. -/
inductive Emission (e s : Type) where
  | errChan (err : e)
  | logChan (stats : s)
deriving Repr, DecidableEq

/-- Whether an emission went to the error channel. -/
def Emission.isErrChan : Emission e s → Bool
  | .errChan _ => true
  | _ => false

/-- Whether an emission went to the log channel. -/
def Emission.isLogChan : Emission e s → Bool
  | .logChan _ => true
  | _ => false

/-- logWebpackData (src/src/index.js:213-227) run on a possibly absent
error and a possibly absent stats value, returning the emissions it
performed and whether it raised: the error is emitted first when present,
then stats.toString is rendered to the log channel — a member access that
throws when stats is absent, after the error emission has already
happened. -/
def logWebpackData (err : Option e) (stats : Option s) : List (Emission e s) × Bool :=
  let onErr : List (Emission e s) := match err with
    | some x => [Emission.errChan x]
    | none => []
  match stats with
  | none => (onErr, true)
  | some st => (onErr ++ [Emission.logChan st], false)

/-- A build outcome delivered by the engine on one pass, at the boundary
contract of the spec data model: an optional error plus the stats result. -/
structure BuildOutcome (e s : Type) where
  error : Option e
  stats : s

/-- compile (src/src/index.js:169-178): the run callback fires once with
the outcome; it reports diagnostics and then resolves — the resolve call
is reached only if the reporter did not raise. Returns the emissions and
the final promise. -/
def compile (out : BuildOutcome e s) : List (Emission e s) × PromiseState Unit :=
  let r := logWebpackData out.error (some out.stats)
  (r.1, if r.2 then .pending else resolveP .pending ())

/-- The state of one compileAndWatch call (src/src/index.js:189-203): the
initialRun flag, the returned promise, the emissions so far, and a count
of how many times the promise was actually settled. -/
structure WatchState (e s : Type) where
  initialRun : Bool
  promise : PromiseState Unit
  emissions : List (Emission e s)
  resolveCalls : Nat

/-- The state before the first watch callback fires
(src/src/index.js:191-193). -/
def watchInit : WatchState e s :=
  { initialRun := true, promise := .pending, emissions := [], resolveCalls := 0 }

/-- One firing of the watch callback (src/src/index.js:194-200): report
diagnostics, then on the initial run clear the flag and resolve. -/
def watchStep (st : WatchState e s) (out : BuildOutcome e s) : WatchState e s :=
  let r := logWebpackData out.error (some out.stats)
  let st := { st with emissions := st.emissions ++ r.1 }
  if st.initialRun then
    { st with
      initialRun := false
      promise := resolveP st.promise ()
      resolveCalls := st.resolveCalls + 1 }
  else st

/-- compileAndWatch over the sequence of build outcomes the watch session
delivers, in order. -/
def compileAndWatch (outs : List (BuildOutcome e s)) : WatchState e s :=
  outs.foldl watchStep watchInit

/-- An ambient environment in which NODE_ENV is set to the empty string
and everything else is unset. -/
def ambEmptyNodeEnv : Env :=
  fun k => if k = "NODE_ENV" then some "" else none

/-- Once the promise returned by run is settled, further events leave both
the promise and the effective-resolution count unchanged. -/
theorem runStep_foldl_settled (d : String) (v : a) (n : Nat)
    (trace : List (String × a)) :
    trace.foldl (runStep d) (PromiseState.fulfilled v, n) = (.fulfilled v, n) := by
  induction trace with
  | nil => rfl
  | cons ev rest ih =>
    have hstep : runStep d (PromiseState.fulfilled v, n) ev = (.fulfilled v, n) := by
      unfold runStep
      split <;> rfl
    rw [List.foldl_cons, hstep, ih]

/-- Characterization of the run listener fold: the promise ends fulfilled
with the payload of the first event matching the awaited name, pending if
none matches, and the promise is settled at most once. -/
theorem runStep_foldl_eq (d : String) (trace : List (String × a)) :
    trace.foldl (runStep d) (PromiseState.pending, 0)
      = (match trace.find? (fun ev => ev.1 == d) with
         | some ev => (PromiseState.fulfilled ev.2, 1)
         | none => (PromiseState.pending, 0)) := by
  induction trace with
  | nil => rfl
  | cons ev rest ih =>
    by_cases h : ev.1 = d
    · have hstep : runStep d (PromiseState.pending, 0) ev = (.fulfilled ev.2, 1) := by
        unfold runStep
        simp [h]
      rw [List.foldl_cons, hstep, runStep_foldl_settled, List.find?_cons_of_pos]
      simp [h]
    · have hstep : runStep d (PromiseState.pending, 0) ev = (.pending, 0) := by
        unfold runStep
        simp [h]
      rw [List.foldl_cons, hstep, ih, List.find?_cons_of_neg]
      simp [h]

/-- C5: for every run request (any strategy, any resolveOn) and every
event trace the child emits, the future returned by run is fulfilled with
the payload of the first firing of the awaited lifecycle event; later
firings do not change it; the promise is effectively settled exactly once
when the event fires at all and zero times otherwise, and it is never
rejected. -/
theorem run_single_resolution (p : RunParams) (trace : List (String × a)) :
    (runFuture p trace
        = (match trace.find? (fun ev => ev.1 == resolveOnOf p) with
           | some ev => PromiseState.fulfilled ev.2
           | none => PromiseState.pending))
    ∧ runResolveCount p trace
        = (if trace.any (fun ev => ev.1 == resolveOnOf p) then 1 else 0)
    ∧ (runFuture p trace).isRejected = false := by
  have hfold := runStep_foldl_eq (resolveOnOf p) trace
  have hiff : (trace.any (fun ev => ev.1 == resolveOnOf p)) = true
      ↔ (trace.find? (fun ev => ev.1 == resolveOnOf p)).isSome = true := by
    rw [List.any_eq_true, List.find?_isSome]
  unfold runFuture runResolveCount
  rw [hfold]
  cases hf : trace.find? (fun ev => ev.1 == resolveOnOf p) with
  | none =>
    have hany : (trace.any (fun ev => ev.1 == resolveOnOf p)) = false := by
      cases han : trace.any (fun ev => ev.1 == resolveOnOf p) with
      | false => rfl
      | true => exact absurd (hiff.mp han) (by rw [hf]; simp)
    simp [hany, PromiseState.isRejected]
  | some ev =>
    have hany : (trace.any (fun ev => ev.1 == resolveOnOf p)) = true := by
      exact hiff.mpr (by rw [hf]; rfl)
    simp [hany, PromiseState.isRejected]

/-- C6 counterexample: a spawn failure with an error-type resolveOn does
not reject the future, as the claim requires; it fulfills it with the
error payload (the executor of run never calls reject). -/
theorem run_spawn_failure_not_rejected :
    (runFuture { resolveOn := some "error" } (spawnFailureTrace "ENOENT")).isRejected
        = false
    ∧ runFuture { resolveOn := some "error" } (spawnFailureTrace "ENOENT")
        = PromiseState.fulfilled "ENOENT" := by
  constructor <;> rfl

/-- C6 amended: on a spawn failure the child emits only the error event,
so the future returned by run is fulfilled with the error payload exactly
when the caller awaits the error event, stays pending forever under any
other resolveOn, and is never rejected. -/
theorem run_spawn_failure (p : RunParams) (err : a) :
    runFuture p (spawnFailureTrace err)
        = (if resolveOnOf p = "error" then PromiseState.fulfilled err
           else PromiseState.pending)
    ∧ (runFuture p (spawnFailureTrace err)).isRejected = false := by
  by_cases h : resolveOnOf p = "error"
  · have : ("error" : String) = resolveOnOf p := h.symm
    constructor
    · unfold runFuture spawnFailureTrace
      simp [runStep, this.symm, h]
    · unfold runFuture spawnFailureTrace
      simp [runStep, this.symm, PromiseState.isRejected]
  · have h2 : ("error" : String) ≠ resolveOnOf p := by
      intro hh
      exact h hh.symm
    constructor
    · unfold runFuture spawnFailureTrace
      simp [runStep, h, h2]
    · unfold runFuture spawnFailureTrace
      simp [runStep, h2, PromiseState.isRejected]

/-- C8 counterexample: with NODE_ENV set to the empty string in the
ambient environment, the child sees "development", not the inherited
empty value the claim requires — the or-else in run treats an empty
string like an unset variable. -/
theorem childEnv_empty_string_counterexample :
    childEnv ambEmptyNodeEnv "NODE_ENV" = some "development"
    ∧ ambEmptyNodeEnv "NODE_ENV" = some ""
    ∧ ("development" : String) ≠ "" := by
  refine ⟨rfl, rfl, ?_⟩
  decide

/-- C8 amended: under any of the three strategies, the spawned child
receives the ambient environment with NODE_ENV set to its inherited value
when that value is nonempty, and to "development" when the variable is
unset or set to the empty string; every other variable is passed through
unchanged. -/
theorem run_environment (script : String) (p : RunParams) (ambient : Env)
    (k : String) :
    (runLaunch script p ambient).environment = childEnv ambient
    ∧ childEnv ambient "NODE_ENV"
        = some (jsOrStr (ambient "NODE_ENV") "development")
    ∧ (k = "NODE_ENV" ∨ childEnv ambient k = ambient k) := by
  refine ⟨?_, rfl, ?_⟩
  · unfold runLaunch
    split <;> rfl
  · by_cases hk : k = "NODE_ENV"
    · exact Or.inl hk
    · exact Or.inr (by unfold childEnv; simp [hk])

/-- C7 counterexample: when the engine hands the reporter no stats value
(as webpack does on a fatal error), the member access stats.toString
raises into the caller, contradicting the never-fails claim. -/
theorem logWebpackData_raises_counterexample :
    (logWebpackData (some "fatal") (none : Option String)).2 = true := by
  rfl

/-- C7 amended: the reporter emits the error through the error channel
exactly when an error is present, emits one rendering of the result
through the log channel exactly when the result is present, and raises
into its caller exactly when the result is absent (never when it is
present). -/
theorem logWebpackData_report (err : Option e) (stats : Option s) :
    ((logWebpackData err stats).1.countP Emission.isErrChan
        = if err.isSome then 1 else 0)
    ∧ ((logWebpackData err stats).1.countP Emission.isLogChan
        = if stats.isSome then 1 else 0)
    ∧ (logWebpackData err stats).2 = stats.isNone := by
  cases err <;> cases stats <;>
    simp [logWebpackData, Emission.isErrChan, Emission.isLogChan]

/-- Reporting a build outcome that carries a stats value never raises. -/
theorem logWebpackData_present_ok (err : Option e) (st : s) :
    (logWebpackData err (some st)).2 = false := by
  cases err <;> rfl

/-- Reporting a build outcome that carries a stats value emits exactly one
log-channel rendering. -/
theorem logWebpackData_present_logCount (err : Option e) (st : s) :
    ((logWebpackData err (some st)).1.countP Emission.isLogChan) = 1 := by
  cases err <;> simp [logWebpackData, Emission.isLogChan, Emission.isErrChan]

/-- C2: for every build outcome the engine completes with, the future
returned by compile is fulfilled (exactly one effective resolution of a
fresh promise), never rejected, and the error is routed only to the
diagnostics channels: one error emission exactly when an error is
present, one log rendering always. -/
theorem compile_resolves_once (out : BuildOutcome e s) :
    (compile out).2 = PromiseState.fulfilled ()
    ∧ (compile out).2.isRejected = false
    ∧ ((compile out).1.countP Emission.isErrChan
        = if out.error.isSome then 1 else 0)
    ∧ ((compile out).1.countP Emission.isLogChan = 1) := by
  have hok := logWebpackData_present_ok out.error out.stats
  have hcounts := logWebpackData_report out.error (some out.stats)
  refine ⟨?_, ?_, ?_, ?_⟩
  · simp [compile, hok, resolveP]
  · simp [compile, hok, resolveP, PromiseState.isRejected]
  · exact hcounts.1
  · exact logWebpackData_present_logCount out.error out.stats

/-- After a watch step, the initialRun flag is always cleared or was
already clear; once clear, a fold of further outcomes leaves the promise,
the resolution count and the flag unchanged and appends exactly one log
rendering per outcome. -/
theorem watch_foldl_steady (outs : List (BuildOutcome e s)) (st : WatchState e s)
    (h : st.initialRun = false) :
    (outs.foldl watchStep st).promise = st.promise
    ∧ (outs.foldl watchStep st).resolveCalls = st.resolveCalls
    ∧ (outs.foldl watchStep st).initialRun = false
    ∧ (outs.foldl watchStep st).emissions.countP Emission.isLogChan
        = st.emissions.countP Emission.isLogChan + outs.length := by
  induction outs generalizing st with
  | nil => exact ⟨rfl, rfl, h, rfl⟩
  | cons o rest ih =>
    have hstep : watchStep st o
        = { st with emissions := st.emissions ++ (logWebpackData o.error (some o.stats)).1 } := by
      unfold watchStep
      rw [h]
      rfl
    have hflag : (watchStep st o).initialRun = false := by
      rw [hstep]
      exact h
    have := ih (watchStep st o) hflag
    rw [List.foldl_cons]
    refine ⟨?_, ?_, this.2.2.1, ?_⟩
    · rw [this.1, hstep]
    · rw [this.2.1, hstep]
    · rw [this.2.2.2, hstep]
      simp [List.countP_append, logWebpackData_present_logCount,
        Nat.add_assoc, Nat.add_comm]

/-- The very first watch callback reports diagnostics, resolves the
promise and clears the initialRun flag. -/
theorem watchStep_init (o : BuildOutcome e s) :
    watchStep watchInit o
      = { initialRun := false
          promise := PromiseState.fulfilled ()
          emissions := (logWebpackData o.error (some o.stats)).1
          resolveCalls := 1 } := by
  unfold watchStep watchInit
  simp [resolveP]

/-- C1: for every nonempty sequence of build outcomes delivered by the
watch session, the future returned by compileAndWatch is fulfilled
already by the first outcome, the promise is effectively settled exactly
once over the whole session, it is never rejected, and diagnostics (one
log rendering) are reported on every pass. -/
theorem compileAndWatch_first_pass (o : BuildOutcome e s)
    (rest : List (BuildOutcome e s)) :
    (watchStep watchInit o).promise = PromiseState.fulfilled ()
    ∧ (compileAndWatch (o :: rest)).promise = PromiseState.fulfilled ()
    ∧ (compileAndWatch (o :: rest)).resolveCalls = 1
    ∧ (compileAndWatch (o :: rest)).promise.isRejected = false
    ∧ (compileAndWatch (o :: rest)).emissions.countP Emission.isLogChan
        = (o :: rest).length := by
  have hinit := watchStep_init o
  have hflag : (watchStep watchInit o).initialRun = false := by rw [hinit]
  have hsteady := watch_foldl_steady rest (watchStep watchInit o) hflag
  have hrun : compileAndWatch (o :: rest) = rest.foldl watchStep (watchStep watchInit o) := by
    unfold compileAndWatch
    rw [List.foldl_cons]
  refine ⟨by rw [hinit], ?_, ?_, ?_, ?_⟩
  · rw [hrun, hsteady.1, hinit]
  · rw [hrun, hsteady.2.1, hinit]
  · rw [hrun, hsteady.1, hinit]
    rfl
  · rw [hrun, hsteady.2.2.2, hinit]
    simp [logWebpackData_present_logCount, Nat.add_comm]

/-- C3: for every sequence of requests, when the Promise.all future of
runAsync resolves, its value has the same length as the input and is the
input-order map of the individual run results — and it is independent of
the completion times of the individual runs (two semantics differing only
in completion times yield the same value). -/
theorem runAsync_positional (valueOf : String → RunParams → a)
    (timeOf timeOf2 : String → RunParams → Nat) (scripts : List RunItem) :
    (runAsync (fun sc p => ⟨timeOf sc p, valueOf sc p⟩) scripts).value
        = scripts.map (fun item => valueOf (normalizeItem item).1 (normalizeItem item).2)
    ∧ (runAsync (fun sc p => ⟨timeOf sc p, valueOf sc p⟩) scripts).value.length
        = scripts.length
    ∧ (runAsync (fun sc p => ⟨timeOf sc p, valueOf sc p⟩) scripts).value
        = (runAsync (fun sc p => ⟨timeOf2 sc p, valueOf sc p⟩) scripts).value := by
  refine ⟨?_, ?_, ?_⟩ <;> simp [runAsync, promiseAll]

/-- C9: a bare script string, an object with no params field, and an
object with the empty params object all normalize to the same run
invocation, so runAsync behaves identically on lists that differ only in
which of these spellings appears at a position. -/
theorem runAsync_normalization (runSem : String → RunParams → JsFuture a)
    (sc : String) (pre post : List RunItem) :
    normalizeItem (RunItem.str sc) = (sc, {})
    ∧ normalizeItem (RunItem.obj sc none) = (sc, {})
    ∧ normalizeItem (RunItem.obj sc (some {})) = (sc, {})
    ∧ runAsync runSem (pre ++ RunItem.str sc :: post)
        = runAsync runSem (pre ++ RunItem.obj sc none :: post)
    ∧ runAsync runSem (pre ++ RunItem.str sc :: post)
        = runAsync runSem (pre ++ RunItem.obj sc (some {}) :: post) := by
  refine ⟨rfl, rfl, rfl, ?_, ?_⟩ <;>
    simp [runAsync, promiseAll, normalizeItem]

/-- C4: with an explicit bundle list, getServers maps each name in order
to build/name.js forked when hot is false, and to the nodemon wrapper
with the single argument build/name.js when hot is true; the hot entries
carry no method field, which run dispatches to the default spawn
(Foreground) strategy. -/
theorem getServers_explicit (bundles : List String)
    (listing : Except String (List String)) :
    getServers (some bundles) false listing
        = Except.ok (bundles.map (fun n =>
            { script := "build/" ++ n ++ ".js"
              params := { method := some "fork" } }))
    ∧ getServers (some bundles) true listing
        = Except.ok (bundles.map (fun n =>
            { script := "scripts/nodemon"
              params := { args := some ["build/" ++ n ++ ".js"] } }))
    ∧ (∀ n : String,
        strategyOf ({ args := some ["build/" ++ n ++ ".js"] } : RunParams)
          = Strategy.foreground) := by
  refine ⟨rfl, rfl, fun n => rfl⟩

/-- C10: when params.bundles is supplied (any list, the empty one
included), getServers never consults the filesystem listing: any two
filesystem states — a missing or unreadable directory included — give
equal, successful results. -/
theorem getServers_fs_independent (bundles : List String) (hot : Bool)
    (l1 l2 : Except String (List String)) :
    getServers (some bundles) hot l1 = getServers (some bundles) hot l2
    ∧ getServers (some bundles) hot l1
        = Except.ok (if hot then
            bundles.map (fun n =>
              { script := "scripts/nodemon"
                params := { args := some ["build/" ++ n ++ ".js"] } })
          else
            bundles.map (fun n =>
              { script := "build/" ++ n ++ ".js"
                params := { method := some "fork" } })) := by
  cases hot <;> exact ⟨rfl, rfl⟩

end FlyBuildUtils
